import Mathlib

/-!
Shallow embedding of the goqueue job engine: the `Job` entity and its state
machine (`internal/entity/job.go`, `internal/job`), the handler registry
(`internal/handler`), the in-memory job store (`internal/storage`), the worker
pool dispatch/retry loop (`internal/worker`), and the `goqueue` facade
(`goqueue.go`).  Go pointer-receiver methods that mutate the receiver and
return an `error` are embedded as functions returning the final receiver value
paired with an optional error; `time.Now()` is threaded as an explicit `now`
parameter; Go `int` fields are embedded as `Int`.
-/

namespace GoQueue

/-- Job status values: `StatusPending | StatusProcessing | StatusCompleted |
StatusFailed` from `internal/entity/job.go`. -/
inductive Status where
  | pending
  | processing
  | completed
  | failed
deriving DecidableEq, Repr

/-- The `Job` struct from `internal/entity/job.go`.  `Payload` is an opaque
string-keyed map, embedded as an association list; timestamps are abstract
`Nat` ticks. -/
structure Job where
  id : String
  type : String
  payload : List (String × String)
  status : Status
  attempts : Int
  maxRetry : Int
  error : String
  createdAt : Nat
  updatedAt : Nat
deriving DecidableEq, Repr

/-- Error raised by `ChangeStatus` on a pair outside the transition table
(the `ErrInvalidStatusTransition` wrap in Go). -/
inductive JobError where
  | invalidTransition (src : Status) (dst : Status)
deriving DecidableEq, Repr

/-- The `canTransition` table from `internal/entity/job.go`:
pending can go to processing; processing to completed, failed or pending
(retry); completed and failed admit nothing. -/
def canTransition : Status → Status → Bool
  | .pending, .processing => true
  | .processing, .completed => true
  | .processing, .failed => true
  | .processing, .pending => true
  | _, _ => false

/-- `Job.ChangeStatus`: sets the status if `canTransition` allows it, else
returns an invalid-transition error and leaves the job untouched. -/
def Job.ChangeStatus (j : Job) (s : Status) : Job × Option JobError :=
  if canTransition j.status s then
    ({ j with status := s }, none)
  else
    (j, some (JobError.invalidTransition j.status s))

/-- `Job.CanRetry`: `Attempts < MaxRetry`. -/
def Job.CanRetry (j : Job) : Bool :=
  j.attempts < j.maxRetry

/-- `Job.MarkRunning`: transition to processing (failing without any mutation
if rejected), then increment `Attempts` and stamp `UpdatedAt`. -/
def Job.MarkRunning (j : Job) (now : Nat) : Job × Option JobError :=
  match j.ChangeStatus .processing with
  | (j1, none) => ({ j1 with attempts := j1.attempts + 1, updatedAt := now }, none)
  | (j1, some e) => (j1, some e)

/-- `Job.MarkCompleted`: transition to completed (failing without any mutation
if rejected), then clear `Error` and stamp `UpdatedAt`. -/
def Job.MarkCompleted (j : Job) (now : Nat) : Job × Option JobError :=
  match j.ChangeStatus .completed with
  | (j1, none) => ({ j1 with error := "", updatedAt := now }, none)
  | (j1, some e) => (j1, some e)

/-- `Job.MarkFailed`: record the failure message into `Error` and stamp
`UpdatedAt` first, then attempt the transition to pending (when `CanRetry`)
or failed (otherwise).  The `Error`/`UpdatedAt` writes happen before the
transition check, exactly as in the Go source. -/
def Job.MarkFailed (j : Job) (msg : String) (now : Nat) : Job × Option JobError :=
  let j1 := { j with error := msg, updatedAt := now }
  let target := if j1.CanRetry then Status.pending else Status.failed
  j1.ChangeStatus target

/-- One second expressed in the engine's duration unit (`time.Second` in
nanoseconds). -/
def timeSecond : Int := 1000000000

/-- `Job.BackoffDuration`: `time.Duration(Attempts * Attempts) * time.Second`. -/
def Job.BackoffDuration (j : Job) : Int :=
  j.attempts * j.attempts * timeSecond

/-- `NewJob`/`job.New`: a fresh job starts pending with zero attempts, empty
error, and an id derived from the creation timestamp. -/
def NewJob (jobType : String) (payload : List (String × String))
    (maxRetry : Int) (now : Nat) : Job :=
  { id := "job_" ++ toString now
    type := jobType
    payload := payload
    status := .pending
    attempts := 0
    maxRetry := maxRetry
    error := ""
    createdAt := now
    updatedAt := now }

/-- Lookup in a string-keyed association list; the embedding of Go map reads
(`m[key]` with the `ok` flag given by `Option`). -/
def lookupA {V : Type} : List (String × V) → String → Option V
  | [], _ => none
  | (k, v) :: rest, key => if k = key then some v else lookupA rest key

/-- Assignment in a string-keyed association list; the embedding of Go map
writes (`m[key] = v`): overwrites the entry for `key` if present, inserts it
otherwise. -/
def setA {V : Type} : List (String × V) → String → V → List (String × V)
  | [], key, v => [(key, v)]
  | (k, w) :: rest, key, v =>
      if k = key then (key, v) :: rest else (k, w) :: setA rest key v

/-- The `ErrHandlerNotFound` wrap produced by `Registry.Get` for a missing
job type. -/
inductive RegError where
  | handlerNotFound (jobType : String)
deriving DecidableEq, Repr

/-- The handler registry from `internal/handler`: a map from job-type string
to a handler value (generic in the stored handler type, as the registry never
inspects it). -/
abbrev Registry (H : Type) : Type := List (String × H)

/-- `Registry.Register`: `r.handlers[jobType] = fn` — last registration wins,
no error. -/
def Registry.Register {H : Type} (r : Registry H) (jobType : String) (h : H) :
    Registry H :=
  setA r jobType h

/-- `Registry.Get`: returns the registered handler or a `HandlerNotFound`
error. -/
def Registry.Get {H : Type} (r : Registry H) (jobType : String) :
    Except RegError H :=
  match lookupA r jobType with
  | some h => Except.ok h
  | none => Except.error (RegError.handlerNotFound jobType)

/-- The `ErrNotFound` value of the storage package. -/
inductive StoreError where
  | notFound
deriving DecidableEq, Repr

/-- The in-memory job store `storage.Memory`: a map from job id to job
snapshot. -/
abbrev Store : Type := List (String × Job)

/-- `Memory.Save`: `m.jobs[j.ID] = j` — always succeeds, overwrites. -/
def Store.Save (st : Store) (j : Job) : Store :=
  setA st j.id j

/-- `Memory.Get`: returns the stored job or `ErrNotFound`. -/
def Store.Get (st : Store) (id : String) : Except StoreError Job :=
  match lookupA st id with
  | some j => Except.ok j
  | none => Except.error StoreError.notFound

/-- `Memory.Update`: overwrites the entry for `j.ID` when it exists, otherwise
returns `ErrNotFound` with the store untouched. -/
def Store.Update (st : Store) (j : Job) : Store × Option StoreError :=
  match lookupA st j.id with
  | some _ => (setA st j.id j, none)
  | none => (st, some StoreError.notFound)

/-- A handler's observable outcome: given the attempt counter of the invoking
execution, `none` means the handler returned `nil` and `some msg` means it
returned an error with message `msg`.  This abstracts the Go closure
`func(ctx, payload) error`, whose outcome on the k-th execution the claims
describe by attempt number. -/
abbrev Handler : Type := Int → Option String

/-- Result of one `Pool.processJob` pass: the store and job after the pass,
plus whether a delayed re-enqueue of the job was scheduled. -/
structure ProcResult where
  store : Store
  job : Job
  requeued : Bool
deriving DecidableEq, Repr

/-- `Pool.processJob` from `internal/worker` (the `internal/job` engine):
mark running (the returned error is discarded), persist via `Update`
(returning early if that fails), look up the handler (on a miss: mark failed,
persist, return — no re-enqueue), run the handler, then mark failed with a
re-enqueue scheduled iff `CanRetry`, or mark completed; persist the final
state. -/
def Pool.processJob (handlers : Registry Handler) (st : Store) (j : Job)
    (now : Nat) : ProcResult :=
  let j1 := (j.MarkRunning now).1
  match Store.Update st j1 with
  | (_, some _) => ⟨st, j1, false⟩
  | (st1, none) =>
    match Registry.Get handlers j1.type with
    | Except.error _ =>
        let j2 := (j1.MarkFailed "no handler registered" now).1
        ⟨(Store.Update st1 j2).1, j2, false⟩
    | Except.ok h =>
        match h j1.attempts with
        | some msg =>
            let j2 := (j1.MarkFailed msg now).1
            ⟨(Store.Update st1 j2).1, j2, j2.CanRetry⟩
        | none =>
            let j2 := (j1.MarkCompleted now).1
            ⟨(Store.Update st1 j2).1, j2, false⟩

/-- The engine's retry loop: a job delivered to a worker is processed by
`Pool.processJob`, and processed again whenever the pass scheduled a delayed
re-enqueue (the `go func … p.jobs <- job` branch).  `fuel` bounds the number
of passes; every run of interest terminates within its fuel. -/
def runPool (handlers : Registry Handler) :
    Nat → Store → Job → Nat → Store × Job
  | 0, st, j, _ => (st, j)
  | Nat.succ fuel, st, j, now =>
      let r := Pool.processJob handlers st j now
      if r.requeued then runPool handlers fuel r.store r.job (now + 1)
      else (r.store, r.job)

/-- `JobProcessor.ProcessJob` from `internal/usecase` (the `internal/entity`
engine): mark running (aborting on a rejected transition), persist, run the
handler, then mark failed and persist and return the handler error, or mark
completed and persist.  The returned value is the final job, the store, and
the error message propagated to the caller, if any. -/
def JobProcessor.ProcessJob (st : Store) (j : Job) (h : Handler) (now : Nat) :
    Store × Job × Option String :=
  match j.MarkRunning now with
  | (j1, some _) => (st, j1, some "invalid transition")
  | (j1, none) =>
      let st1 := Store.Save st j1
      match h j1.attempts with
      | some msg =>
          match j1.MarkFailed msg now with
          | (j2, some _) => (st1, j2, some "invalid transition")
          | (j2, none) => (Store.Save st1 j2, j2, some msg)
      | none =>
          match j1.MarkCompleted now with
          | (j2, some _) => (st1, j2, some "invalid transition")
          | (j2, none) => (Store.Save st1 j2, j2, none)

/-- One message of `WorkerPool.worker` from `internal/worker/pool.go` (the
`internal/entity` engine): look up the handler by `job.Type`; on a miss, mark
the job failed (error discarded) and persist it with `SaveJob`; otherwise
delegate to `JobProcessor.ProcessJob`. -/
def WorkerPool.workerStep (reg : Registry Handler) (st : Store) (j : Job)
    (now : Nat) : Store × Job :=
  match Registry.Get reg j.type with
  | Except.error _ =>
      let j1 := (j.MarkFailed "no handler registered" now).1
      (Store.Save st j1, j1)
  | Except.ok h =>
      let r := JobProcessor.ProcessJob st j h now
      (r.1, r.2.1)

/-- `Queue.SubmitJob` from `goqueue.go`: resolve the handler first (returning
the lookup error with nothing created on a miss), otherwise construct the job,
persist it, and enqueue it on the pool.  Returns the created job (if any), the
resulting store, the resulting intake queue, and the error (if any). -/
def Queue.SubmitJob (reg : Registry Handler) (st : Store) (pool : List Job)
    (jobType : String) (payload : List (String × String)) (maxRetry : Int)
    (now : Nat) : Option Job × Store × List Job × Option RegError :=
  match Registry.Get reg jobType with
  | Except.error e => (none, st, pool, some e)
  | Except.ok _ =>
      let j := NewJob jobType payload maxRetry now
      (some j, Store.Save st j, pool ++ [j], none)

/-- One engine-side mutation of a job: the engine's call sites only ever apply
`MarkRunning`, `MarkCompleted` or `MarkFailed` (with some timestamp and
failure message), keeping the job value the call returns. -/
inductive EngineStep : Job → Job → Prop where
  | markRunning (j : Job) (now : Nat) : EngineStep j (j.MarkRunning now).1
  | markCompleted (j : Job) (now : Nat) : EngineStep j (j.MarkCompleted now).1
  | markFailed (j : Job) (msg : String) (now : Nat) :
      EngineStep j (j.MarkFailed msg now).1

/-- Reachability through the engine's job operations. -/
def Reaches : Job → Job → Prop :=
  Relation.ReflTransGen EngineStep

/-! Helper lemmas about the embedded operations. -/

theorem lookupA_setA_self {V : Type} (l : List (String × V)) (k : String)
    (v : V) : lookupA (setA l k v) k = some v := by
  induction l with
  | nil => simp [setA, lookupA]
  | cons kv rest ih =>
      obtain ⟨k', w⟩ := kv
      by_cases hk : k' = k
      · subst hk; simp [setA, lookupA]
      · simp [setA, lookupA, hk, ih]

theorem markRunning_pending (j : Job) (now : Nat)
    (hpend : j.status = Status.pending) :
    j.MarkRunning now =
      ({ j with
          status := Status.processing
          attempts := j.attempts + 1
          updatedAt := now }, none) := by
  simp [Job.MarkRunning, Job.ChangeStatus, hpend, canTransition]

theorem markFailed_processing_retry (j : Job) (msg : String) (now : Nat)
    (hproc : j.status = Status.processing) (hc : j.attempts < j.maxRetry) :
    j.MarkFailed msg now =
      ({ j with
          status := Status.pending
          error := msg
          updatedAt := now }, none) := by
  simp [Job.MarkFailed, Job.ChangeStatus, Job.CanRetry, hproc, hc, canTransition]

theorem markFailed_processing_exhausted (j : Job) (msg : String) (now : Nat)
    (hproc : j.status = Status.processing) (hc : ¬ j.attempts < j.maxRetry) :
    j.MarkFailed msg now =
      ({ j with
          status := Status.failed
          error := msg
          updatedAt := now }, none) := by
  simp [Job.MarkFailed, Job.ChangeStatus, Job.CanRetry, hproc, hc, canTransition]

theorem markCompleted_processing (j : Job) (now : Nat)
    (hproc : j.status = Status.processing) :
    j.MarkCompleted now =
      ({ j with
          status := Status.completed
          error := ""
          updatedAt := now }, none) := by
  simp [Job.MarkCompleted, Job.ChangeStatus, hproc, canTransition]

theorem markRunning_err_frame (k : Job) (n : Nat)
    (h : (k.MarkRunning n).2 ≠ none) : (k.MarkRunning n).1 = k := by
  by_cases hc : canTransition k.status .processing
  · exact absurd (by simp [Job.MarkRunning, Job.ChangeStatus, hc]) h
  · simp [Job.MarkRunning, Job.ChangeStatus, hc]

theorem markCompleted_err_frame (k : Job) (n : Nat)
    (h : (k.MarkCompleted n).2 ≠ none) : (k.MarkCompleted n).1 = k := by
  by_cases hc : canTransition k.status .completed
  · exact absurd (by simp [Job.MarkCompleted, Job.ChangeStatus, hc]) h
  · simp [Job.MarkCompleted, Job.ChangeStatus, hc]

theorem markFailed_terminal_eq (j : Job) (msg : String) (now : Nat)
    (hterm : j.status = Status.completed ∨ j.status = Status.failed) :
    j.MarkFailed msg now =
      ({ j with error := msg, updatedAt := now },
       some (JobError.invalidTransition j.status
         (if j.CanRetry then Status.pending else Status.failed))) := by
  have hct : ∀ t, canTransition j.status t = false := by
    rcases hterm with h | h <;> rw [h] <;> intro t <;> cases t <;> rfl
  by_cases hc : j.CanRetry <;>
    simp [Job.MarkFailed, Job.ChangeStatus, Job.CanRetry, hct, hc]

/-! Claim theorems. -/

/-- Claim C3: `ChangeStatus(to)` succeeds exactly on the pairs of the
transition table (Pending to Processing; Processing to Completed, Failed or
Pending); every other pair yields an `InvalidTransition` error and leaves the
job unchanged. -/
theorem changeStatus_matches_table (j : Job) (s : Status) :
    ((j.ChangeStatus s).2 = none ↔
      (j.status = Status.pending ∧ s = Status.processing) ∨
      (j.status = Status.processing ∧
        (s = Status.completed ∨ s = Status.failed ∨ s = Status.pending))) ∧
    ((j.ChangeStatus s).2 ≠ none →
      (j.ChangeStatus s).2 = some (JobError.invalidTransition j.status s) ∧
      (j.ChangeStatus s).1 = j) := by
  obtain ⟨i, ty, p, st, a, m, e, c, u⟩ := j
  cases st <;> cases s <;> simp [Job.ChangeStatus, canTransition]

/-- A completed job used to instantiate claim C3's theorem. -/
def completedJobC3 : Job :=
  { id := "j3", type := "t", payload := [], status := Status.completed,
    attempts := 2, maxRetry := 3, error := "", createdAt := 0, updatedAt := 0 }

/-- Witness for claim C3: the terminal state Completed rejects the transition
to Pending, returning the invalid-transition error with the job untouched. -/
theorem changeStatus_matches_table_check :
    (completedJobC3.ChangeStatus Status.pending).2 =
      some (JobError.invalidTransition Status.completed Status.pending) ∧
    (completedJobC3.ChangeStatus Status.pending).1 = completedJobC3 :=
  (changeStatus_matches_table completedJobC3 Status.pending).2 (by decide)

/-- Claim C5: `BackoffDuration()` equals `Attempts²` seconds, and is
monotonically non-decreasing in the attempt count (for non-negative attempt
counts). -/
theorem backoffDuration_spec (j k : Job) (h0 : 0 ≤ j.attempts)
    (hle : j.attempts ≤ k.attempts) :
    j.BackoffDuration = j.attempts ^ 2 * timeSecond ∧
    j.BackoffDuration ≤ k.BackoffDuration := by
  constructor
  · unfold Job.BackoffDuration; ring
  · unfold Job.BackoffDuration
    have h1 : j.attempts * j.attempts ≤ k.attempts * k.attempts :=
      mul_le_mul hle hle h0 (le_trans h0 hle)
    have h2 : (0 : Int) ≤ timeSecond := by norm_num [timeSecond]
    exact mul_le_mul_of_nonneg_right h1 h2

/-- A job with three attempts, for instantiating claim C5's theorem. -/
def threeAttemptJob : Job :=
  { id := "j5a", type := "t", payload := [], status := Status.pending,
    attempts := 3, maxRetry := 5, error := "", createdAt := 0, updatedAt := 0 }

/-- A job with four attempts, for instantiating claim C5's theorem. -/
def fourAttemptJob : Job :=
  { id := "j5b", type := "t", payload := [], status := Status.pending,
    attempts := 4, maxRetry := 5, error := "", createdAt := 0, updatedAt := 0 }

/-- Witness for claim C5 at attempts 3 and 4: backoff is 9 seconds, below the
16 seconds of the next attempt count. -/
theorem backoffDuration_spec_check :
    threeAttemptJob.BackoffDuration = threeAttemptJob.attempts ^ 2 * timeSecond ∧
    threeAttemptJob.BackoffDuration ≤ fourAttemptJob.BackoffDuration :=
  backoffDuration_spec threeAttemptJob fourAttemptJob (by decide) (by decide)

/-- Claim C8: in the handler registry, `Get` after `Register(t, h)` returns
`h`; a second `Register(t, h2)` overwrites, so `Get` then returns `h2`; and
`Get` on a type never registered fails with `HandlerNotFound`. -/
theorem registry_register_get_spec {H : Type} (r : Registry H) (t : String)
    (h h2 : H) (hnone : lookupA r t = none) :
    Registry.Get (Registry.Register r t h) t = Except.ok h ∧
    Registry.Get (Registry.Register (Registry.Register r t h) t h2) t =
      Except.ok h2 ∧
    Registry.Get r t = Except.error (RegError.handlerNotFound t) := by
  refine ⟨?_, ?_, ?_⟩
  · unfold Registry.Get Registry.Register; rw [lookupA_setA_self]
  · unfold Registry.Get Registry.Register; rw [lookupA_setA_self]
  · unfold Registry.Get; rw [hnone]

/-- Witness for claim C8 on a concrete registry over `Nat` handler tokens. -/
theorem registry_register_get_spec_check :
    Registry.Get (Registry.Register [("a", 1)] "b" 2) "b" = Except.ok 2 ∧
    Registry.Get (Registry.Register (Registry.Register [("a", 1)] "b" 2) "b" 3)
      "b" = Except.ok 3 ∧
    Registry.Get ([("a", 1)] : Registry Nat) "b" =
      Except.error (RegError.handlerNotFound "b") :=
  registry_register_get_spec [("a", 1)] "b" 2 3 (by decide)

/-- Claim C9: in the in-memory job store, `Get(j.ID)` after `Save(j)` returns
`j` — also when an entry with the same id was already present, since `Save`
always succeeds and overwrites — and `Update` on an id never saved fails with
`NotFound`, returning the store unchanged. -/
theorem store_save_get_update_spec (st : Store) (j k w : Job)
    (hk : lookupA st k.id = none) :
    Store.Get (Store.Save st j) j.id = Except.ok j ∧
    Store.Get (Store.Save (Store.Save st w) j) j.id = Except.ok j ∧
    Store.Update st k = (st, some StoreError.notFound) := by
  refine ⟨?_, ?_, ?_⟩
  · unfold Store.Get Store.Save; rw [lookupA_setA_self]
  · unfold Store.Get Store.Save; rw [lookupA_setA_self]
  · unfold Store.Update; rw [hk]

/-- A job whose id is absent from the concrete store of claim C9's witness. -/
def unsavedJob : Job :=
  { id := "missing", type := "t", payload := [], status := Status.pending,
    attempts := 0, maxRetry := 3, error := "", createdAt := 0, updatedAt := 0 }

/-- A job saved into the concrete store of claim C9's witness. -/
def savedJob : Job :=
  { id := "job_9", type := "t", payload := [], status := Status.pending,
    attempts := 0, maxRetry := 3, error := "", createdAt := 9, updatedAt := 9 }

/-- An older snapshot sharing `savedJob`'s id, overwritten in claim C9's
witness. -/
def staleJob : Job :=
  { id := "job_9", type := "t", payload := [], status := Status.failed,
    attempts := 3, maxRetry := 3, error := "boom", createdAt := 9,
    updatedAt := 12 }

/-- Witness for claim C9 on a concrete empty store. -/
theorem store_save_get_update_spec_check :
    Store.Get (Store.Save [] savedJob) savedJob.id = Except.ok savedJob ∧
    Store.Get (Store.Save (Store.Save [] staleJob) savedJob) savedJob.id =
      Except.ok savedJob ∧
    Store.Update [] unsavedJob = ([], some StoreError.notFound) :=
  store_save_get_update_spec [] savedJob unsavedJob staleJob (by decide)

/-- Claim C10: on a terminal job (Completed or Failed), `MarkFailed(err)`
returns an `InvalidTransition` error yet still overwrites `Error` with the
message and stamps `UpdatedAt`, leaving `Status` and `Attempts` unchanged;
`MarkRunning` and `MarkCompleted`, by contrast, leave the job fully unchanged
whenever they reject a transition. -/
theorem markFailed_terminal_not_atomic (j k : Job) (msg : String)
    (now n2 : Nat)
    (hterm : j.status = Status.completed ∨ j.status = Status.failed) :
    (j.MarkFailed msg now).2 =
      some (JobError.invalidTransition j.status
        (if j.CanRetry then Status.pending else Status.failed)) ∧
    (j.MarkFailed msg now).1.error = msg ∧
    (j.MarkFailed msg now).1.updatedAt = now ∧
    (j.MarkFailed msg now).1.status = j.status ∧
    (j.MarkFailed msg now).1.attempts = j.attempts ∧
    ((k.MarkRunning n2).2 ≠ none → (k.MarkRunning n2).1 = k) ∧
    ((k.MarkCompleted n2).2 ≠ none → (k.MarkCompleted n2).1 = k) := by
  rw [markFailed_terminal_eq j msg now hterm]
  exact ⟨rfl, rfl, rfl, rfl, rfl,
    fun h => markRunning_err_frame k n2 h,
    fun h => markCompleted_err_frame k n2 h⟩

/-- A failed job with a stale error message, for claim C10's witness. -/
def failedJobC10 : Job :=
  { id := "j10", type := "t", payload := [], status := Status.failed,
    attempts := 3, maxRetry := 3, error := "old failure", createdAt := 0,
    updatedAt := 5 }

/-- Witness for claim C10 on a concrete failed job: `MarkFailed` rewrites the
error and timestamp while the rejected `MarkRunning`/`MarkCompleted` calls
leave the job intact. -/
theorem markFailed_terminal_not_atomic_check :
    (failedJobC10.MarkFailed "new failure" 7).2 =
      some (JobError.invalidTransition Status.failed Status.failed) ∧
    (failedJobC10.MarkFailed "new failure" 7).1.error = "new failure" ∧
    (failedJobC10.MarkFailed "new failure" 7).1.updatedAt = 7 ∧
    (failedJobC10.MarkFailed "new failure" 7).1.status = Status.failed ∧
    (failedJobC10.MarkFailed "new failure" 7).1.attempts = 3 ∧
    (failedJobC10.MarkRunning 7).1 = failedJobC10 ∧
    (failedJobC10.MarkCompleted 7).1 = failedJobC10 := by
  have h := markFailed_terminal_not_atomic failedJobC10 failedJobC10
    "new failure" 7 7 (Or.inr rfl)
  exact ⟨by simpa using h.1, h.2.1, h.2.2.1, by simpa using h.2.2.2.1,
    by simpa using h.2.2.2.2.1,
    h.2.2.2.2.2.1 (by decide), h.2.2.2.2.2.2 (by decide)⟩

/-! One-pass characterizations of `Pool.processJob` on a pending job whose
type resolves to a handler that fails on this attempt. -/

theorem processJob_fail_retry (reg : Registry Handler) (st : Store)
    (j w : Job) (now : Nat) (h : Handler) (msg : String)
    (hreg : lookupA reg j.type = some h)
    (hw : lookupA st j.id = some w)
    (hpend : j.status = Status.pending)
    (hmsg : h (j.attempts + 1) = some msg)
    (hc : j.attempts + 1 < j.maxRetry) :
    Pool.processJob reg st j now =
      ⟨setA (setA st j.id
          { j with
              status := Status.processing
              attempts := j.attempts + 1
              updatedAt := now }) j.id
          { j with
              status := Status.pending
              attempts := j.attempts + 1
              error := msg
              updatedAt := now },
        { j with
            status := Status.pending
            attempts := j.attempts + 1
            error := msg
            updatedAt := now },
        true⟩ := by
  have hj1 := markRunning_pending j now hpend
  have hj2 := markFailed_processing_retry
    ({ j with
        status := Status.processing
        attempts := j.attempts + 1
        updatedAt := now }) msg now rfl (by simpa using hc)
  have hupd1 : Store.Update st
      { j with
          status := Status.processing
          attempts := j.attempts + 1
          updatedAt := now } =
      (setA st j.id
        { j with
            status := Status.processing
            attempts := j.attempts + 1
            updatedAt := now }, none) := by
    simp [Store.Update, hw]
  have hget : Registry.Get reg j.type = Except.ok h := by
    simp [Registry.Get, hreg]
  have hupd2 : Store.Update (setA st j.id
      { j with
          status := Status.processing
          attempts := j.attempts + 1
          updatedAt := now })
      { j with
          status := Status.pending
          attempts := j.attempts + 1
          error := msg
          updatedAt := now } =
      (setA (setA st j.id
        { j with
            status := Status.processing
            attempts := j.attempts + 1
            updatedAt := now }) j.id
        { j with
            status := Status.pending
            attempts := j.attempts + 1
            error := msg
            updatedAt := now }, none) := by
    simp [Store.Update, lookupA_setA_self]
  simp only [Pool.processJob, hj1, hupd1, hget, hmsg, hj2]
  simp only [hupd2]
  simp [Job.CanRetry, hc]

theorem processJob_fail_exhausted (reg : Registry Handler) (st : Store)
    (j w : Job) (now : Nat) (h : Handler) (msg : String)
    (hreg : lookupA reg j.type = some h)
    (hw : lookupA st j.id = some w)
    (hpend : j.status = Status.pending)
    (hmsg : h (j.attempts + 1) = some msg)
    (hc : ¬ j.attempts + 1 < j.maxRetry) :
    Pool.processJob reg st j now =
      ⟨setA (setA st j.id
          { j with
              status := Status.processing
              attempts := j.attempts + 1
              updatedAt := now }) j.id
          { j with
              status := Status.failed
              attempts := j.attempts + 1
              error := msg
              updatedAt := now },
        { j with
            status := Status.failed
            attempts := j.attempts + 1
            error := msg
            updatedAt := now },
        false⟩ := by
  have hj1 := markRunning_pending j now hpend
  have hj2 := markFailed_processing_exhausted
    ({ j with
        status := Status.processing
        attempts := j.attempts + 1
        updatedAt := now }) msg now rfl (by simpa using hc)
  have hupd1 : Store.Update st
      { j with
          status := Status.processing
          attempts := j.attempts + 1
          updatedAt := now } =
      (setA st j.id
        { j with
            status := Status.processing
            attempts := j.attempts + 1
            updatedAt := now }, none) := by
    simp [Store.Update, hw]
  have hget : Registry.Get reg j.type = Except.ok h := by
    simp [Registry.Get, hreg]
  have hupd2 : Store.Update (setA st j.id
      { j with
          status := Status.processing
          attempts := j.attempts + 1
          updatedAt := now })
      { j with
          status := Status.failed
          attempts := j.attempts + 1
          error := msg
          updatedAt := now } =
      (setA (setA st j.id
        { j with
            status := Status.processing
            attempts := j.attempts + 1
            updatedAt := now }) j.id
        { j with
            status := Status.failed
            attempts := j.attempts + 1
            error := msg
            updatedAt := now }, none) := by
    simp [Store.Update, lookupA_setA_self]
  simp only [Pool.processJob, hj1, hupd1, hget, hmsg, hj2]
  simp only [hupd2]
  simp [Job.CanRetry, hc]

/-- The retry loop on a pending job whose handler fails on every attempt:
it ends failed after driving the attempt counter to `maxRetry` (or to one
more than the current count, when the budget is already spent). -/
theorem runPool_alwaysFail (h : Handler) (hfail : ∀ a, h a ≠ none)
    (reg : Registry Handler) (fuel : Nat) :
    ∀ (st : Store) (j : Job) (now : Nat) (w : Job),
      lookupA reg j.type = some h →
      lookupA st j.id = some w →
      j.status = Status.pending →
      (j.maxRetry - j.attempts).toNat + 1 ≤ fuel →
      (runPool reg fuel st j now).2.status = Status.failed ∧
      (runPool reg fuel st j now).2.attempts =
        max j.maxRetry (j.attempts + 1) := by
  induction fuel with
  | zero => intro st j now w _ _ _ hfuel; omega
  | succ fuel ih =>
      intro st j now w hreg hw hpend hfuel
      obtain ⟨msg, hmsg⟩ := Option.ne_none_iff_exists'.mp (hfail (j.attempts + 1))
      by_cases hc : j.attempts + 1 < j.maxRetry
      · have hstep := processJob_fail_retry reg st j w now h msg hreg hw hpend hmsg hc
        have hone : runPool reg (fuel + 1) st j now =
            runPool reg fuel
              (setA (setA st j.id
                { j with
                    status := Status.processing
                    attempts := j.attempts + 1
                    updatedAt := now }) j.id
                { j with
                    status := Status.pending
                    attempts := j.attempts + 1
                    error := msg
                    updatedAt := now })
              { j with
                  status := Status.pending
                  attempts := j.attempts + 1
                  error := msg
                  updatedAt := now }
              (now + 1) := by
          simp [runPool, hstep]
        rw [hone]
        have hres := ih
          (setA (setA st j.id
            { j with
                status := Status.processing
                attempts := j.attempts + 1
                updatedAt := now }) j.id
            { j with
                status := Status.pending
                attempts := j.attempts + 1
                error := msg
                updatedAt := now })
          { j with
              status := Status.pending
              attempts := j.attempts + 1
              error := msg
              updatedAt := now }
          (now + 1)
          { j with
              status := Status.pending
              attempts := j.attempts + 1
              error := msg
              updatedAt := now }
          (by simpa using hreg)
          (lookupA_setA_self _ _ _)
          rfl
          (by
            show (j.maxRetry - (j.attempts + 1)).toNat + 1 ≤ fuel
            omega)
        refine ⟨hres.1, ?_⟩
        rw [hres.2]
        show max j.maxRetry (j.attempts + 1 + 1) = max j.maxRetry (j.attempts + 1)
        omega
      · have hstep := processJob_fail_exhausted reg st j w now h msg hreg hw hpend hmsg hc
        have hone : runPool reg (fuel + 1) st j now =
            (setA (setA st j.id
              { j with
                  status := Status.processing
                  attempts := j.attempts + 1
                  updatedAt := now }) j.id
              { j with
                  status := Status.failed
                  attempts := j.attempts + 1
                  error := msg
                  updatedAt := now },
             { j with
                 status := Status.failed
                 attempts := j.attempts + 1
                 error := msg
                 updatedAt := now }) := by
          simp [runPool, hstep]
        rw [hone]
        refine ⟨rfl, ?_⟩
        show j.attempts + 1 = max j.maxRetry (j.attempts + 1)
        omega

/-- Claim C1 (amended): a job created with `MaxRetry = N >= 0` and processed
by the retry loop with an always-failing handler ends with `Status = Failed`
and `Attempts = max N 1` — the handler runs at least once, so for `N = 0`
the final attempt count is 1, not `N`; for every `N >= 1` it equals `N`. -/
theorem runPool_alwaysFailing_final (N : Int) (hN : 0 ≤ N) (t msg : String)
    (p : List (String × String)) (st : Store) (fuel now now0 : Nat)
    (hfuel : N.toNat + 1 ≤ fuel) :
    (runPool [(t, fun _ => some msg)] fuel
        (Store.Save st (NewJob t p N now0)) (NewJob t p N now0) now).2.status =
      Status.failed ∧
    (runPool [(t, fun _ => some msg)] fuel
        (Store.Save st (NewJob t p N now0)) (NewJob t p N now0) now).2.attempts =
      max N 1 := by
  have hres := runPool_alwaysFail (fun _ => some msg) (fun a => by simp)
    [(t, fun _ => some msg)] fuel (Store.Save st (NewJob t p N now0))
    (NewJob t p N now0) now (NewJob t p N now0)
    (by simp [NewJob, lookupA])
    (lookupA_setA_self _ _ _)
    rfl
    (by simpa [NewJob] using hfuel)
  refine ⟨hres.1, ?_⟩
  rw [hres.2]
  show max N (0 + 1) = max N 1
  omega

/-- Counterexample to claim C1 as stated: with `MaxRetry = 0` and an
always-failing handler the job does end `Failed`, but with `Attempts = 1`,
not `Attempts = 0`. -/
theorem runPool_alwaysFailing_maxRetryZero_cex :
    ¬ ((runPool [("t", fun _ => some "boom")] 1
          (Store.Save [] (NewJob "t" [] 0 0)) (NewJob "t" [] 0 0) 1).2.status =
        Status.failed ∧
       (runPool [("t", fun _ => some "boom")] 1
          (Store.Save [] (NewJob "t" [] 0 0)) (NewJob "t" [] 0 0) 1).2.attempts =
        0) := by
  decide

/-- Witness for claim C1's amended theorem at `N = 2`: the job fails with
two attempts recorded. -/
theorem runPool_alwaysFailing_final_check :
    (runPool [("t", fun _ => some "boom")] 3
        (Store.Save [] (NewJob "t" [] 2 0)) (NewJob "t" [] 2 0) 1).2.status =
      Status.failed ∧
    (runPool [("t", fun _ => some "boom")] 3
        (Store.Save [] (NewJob "t" [] 2 0)) (NewJob "t" [] 2 0) 1).2.attempts =
      max 2 1 :=
  runPool_alwaysFailing_final 2 (by decide) "t" "boom" [] [] 3 1 0 (by decide)

/-- Claim C6: with `maxRetry = 3` and a handler that fails on the first
attempt and succeeds on the second, the job ends Completed with two attempts
and an empty error (the first attempt's message is cleared by
`MarkCompleted`). -/
theorem runPool_failOnce_completed :
    (runPool [("t", fun a => if a = 1 then some "boom" else none)] 5
        (Store.Save [] (NewJob "t" [] 3 0)) (NewJob "t" [] 3 0) 1).2.status =
      Status.completed ∧
    (runPool [("t", fun a => if a = 1 then some "boom" else none)] 5
        (Store.Save [] (NewJob "t" [] 3 0)) (NewJob "t" [] 3 0) 1).2.attempts =
      2 ∧
    (runPool [("t", fun a => if a = 1 then some "boom" else none)] 5
        (Store.Save [] (NewJob "t" [] 3 0)) (NewJob "t" [] 3 0) 1).2.error =
      "" := by
  decide

/-- Claim C2, evaluated at the failing input: a job of an unregistered type
with `MaxRetry = 3`, dequeued by either worker variant, does NOT become
Failed.  `Pool.processJob` marks it running, then `MarkFailed` consults
`CanRetry` (1 < 3), sends it back to Pending, persists Pending, and never
re-enqueues it; `WorkerPool.worker` calls `MarkFailed` on the fresh pending
job, whose Pending-to-Pending transition is rejected, leaving the persisted
job Pending as well. -/
theorem missingHandler_dispatch_stays_pending :
    (Pool.processJob [] (Store.Save [] (NewJob "ghost" [] 3 0))
        (NewJob "ghost" [] 3 0) 1).job.status = Status.pending ∧
    (Pool.processJob [] (Store.Save [] (NewJob "ghost" [] 3 0))
        (NewJob "ghost" [] 3 0) 1).requeued = false ∧
    lookupA (Pool.processJob [] (Store.Save [] (NewJob "ghost" [] 3 0))
        (NewJob "ghost" [] 3 0) 1).store (NewJob "ghost" [] 3 0).id =
      some (Pool.processJob [] (Store.Save [] (NewJob "ghost" [] 3 0))
        (NewJob "ghost" [] 3 0) 1).job ∧
    (WorkerPool.workerStep [] [] (NewJob "ghost" [] 3 0) 1).2.status =
      Status.pending := by
  decide

/-- Claim C7: `SubmitJob` on a type with no registered handler returns the
`HandlerNotFound` error synchronously with no job created — the store and the
intake queue are returned unchanged — and a missing handler is the only error
`SubmitJob` can produce. -/
theorem submitJob_handlerNotFound_spec (reg : Registry Handler) (st : Store)
    (pool : List Job) (t : String) (p : List (String × String)) (m : Int)
    (now : Nat) :
    (lookupA reg t = none →
      Queue.SubmitJob reg st pool t p m now =
        (none, st, pool, some (RegError.handlerNotFound t))) ∧
    ((Queue.SubmitJob reg st pool t p m now).2.2.2 ≠ none →
      lookupA reg t = none ∧
      (Queue.SubmitJob reg st pool t p m now).2.2.2 =
        some (RegError.handlerNotFound t)) := by
  cases hl : lookupA reg t <;>
    simp [Queue.SubmitJob, Registry.Get, hl]

/-- Witness for claim C7: submitting the unregistered type `ghost` against an
empty registry fails synchronously and creates nothing. -/
theorem submitJob_handlerNotFound_spec_check :
    Queue.SubmitJob ([] : Registry Handler) [] [] "ghost" [] 3 0 =
      (none, [], [], some (RegError.handlerNotFound "ghost")) :=
  (submitJob_handlerNotFound_spec [] [] [] "ghost" [] 3 0).1 rfl

/-! Invariant machinery for claim C4. -/

theorem markRunning_rejected (j : Job) (now : Nat)
    (h : canTransition j.status Status.processing = false) :
    j.MarkRunning now =
      (j, some (JobError.invalidTransition j.status Status.processing)) := by
  simp [Job.MarkRunning, Job.ChangeStatus, h]

theorem markCompleted_rejected (j : Job) (now : Nat)
    (h : canTransition j.status Status.completed = false) :
    j.MarkCompleted now =
      (j, some (JobError.invalidTransition j.status Status.completed)) := by
  simp [Job.MarkCompleted, Job.ChangeStatus, h]

theorem markFailed_nonprocessing_fields (j : Job) (msg : String) (now : Nat)
    (h : j.status ≠ Status.processing) :
    (j.MarkFailed msg now).1.status = j.status ∧
    (j.MarkFailed msg now).1.attempts = j.attempts ∧
    (j.MarkFailed msg now).1.maxRetry = j.maxRetry := by
  have hp : canTransition j.status Status.pending = false := by
    cases hs : j.status <;> simp_all [canTransition]
  have hf : canTransition j.status Status.failed = false := by
    cases hs : j.status <;> simp_all [canTransition]
  by_cases hc : ({ j with error := msg, updatedAt := now } : Job).CanRetry <;>
    simp [Job.MarkFailed, Job.ChangeStatus, hc, hp, hf]

/-- The attempt-budget invariant maintained by the engine's operations when
the budget is at least one: a pending job has strictly fewer attempts than
its budget, any other job at most the budget. -/
def RetryInv (j : Job) : Prop :=
  (j.status = Status.pending → j.attempts < j.maxRetry) ∧
  (j.status ≠ Status.pending → j.attempts ≤ j.maxRetry)

theorem retryInv_of_fields {j j' : Job} (hs : j'.status = j.status)
    (ha : j'.attempts = j.attempts) (hm : j'.maxRetry = j.maxRetry)
    (hinv : RetryInv j) : RetryInv j' := by
  unfold RetryInv at *
  rw [hs, ha, hm]
  exact hinv

theorem engineStep_preserves_retryInv {j j' : Job} (hs : EngineStep j j')
    (hinv : RetryInv j) : RetryInv j' := by
  obtain ⟨h1, h2⟩ := hinv
  cases hs with
  | markRunning now =>
      by_cases hp : j.status = Status.pending
      · rw [markRunning_pending j now hp]
        refine ⟨fun hcon => ?_, fun _ => ?_⟩
        · exact absurd hcon (by simp)
        · have := h1 hp
          show j.attempts + 1 ≤ j.maxRetry
          omega
      · rw [markRunning_rejected j now (by cases hq : j.status <;> simp_all [canTransition])]
        exact ⟨h1, h2⟩
  | markCompleted now =>
      by_cases hp : j.status = Status.processing
      · rw [markCompleted_processing j now hp]
        refine ⟨fun hcon => absurd hcon (by simp), fun _ => ?_⟩
        have := h2 (by rw [hp]; exact fun hx => nomatch hx)
        show j.attempts ≤ j.maxRetry
        omega
      · rw [markCompleted_rejected j now (by cases hq : j.status <;> simp_all [canTransition])]
        exact ⟨h1, h2⟩
  | markFailed msg now =>
      by_cases hp : j.status = Status.processing
      · by_cases hc : j.attempts < j.maxRetry
        · rw [markFailed_processing_retry j msg now hp hc]
          refine ⟨fun _ => ?_, fun hcon => absurd rfl hcon⟩
          show j.attempts < j.maxRetry
          exact hc
        · rw [markFailed_processing_exhausted j msg now hp hc]
          refine ⟨fun hcon => absurd hcon (by simp), fun _ => ?_⟩
          have := h2 (by rw [hp]; exact fun hx => nomatch hx)
          show j.attempts ≤ j.maxRetry
          omega
      · obtain ⟨hs', ha', hm'⟩ := markFailed_nonprocessing_fields j msg now hp
        exact retryInv_of_fields hs' ha' hm' ⟨h1, h2⟩

theorem reaches_retryInv {a j : Job}
    (hr : Relation.ReflTransGen EngineStep a j) (ha : RetryInv a) :
    RetryInv j := by
  induction hr with
  | refl => exact ha
  | tail hab hbc ih => exact engineStep_preserves_retryInv hbc ih

/-- Claim C4 (amended): starting from a newly created job with `Attempts = 0`
and `MaxRetry >= 1`, every state reachable through the engine's operations
that has `Status = Failed` satisfies `Attempts <= MaxRetry` (and hence so
does every later state, all of which are themselves reachable).  For
`MaxRetry = 0` the property fails: the one execution attempt pushes
`Attempts` to 1. -/
theorem reaches_failed_attempts_le_maxRetry (m : Int) (hm : 1 ≤ m)
    (t : String) (p : List (String × String)) (now0 : Nat) (j : Job)
    (hr : Reaches (NewJob t p m now0) j) (hf : j.status = Status.failed) :
    j.attempts ≤ j.maxRetry := by
  have hinv : RetryInv j :=
    reaches_retryInv hr
      ⟨fun _ => by show (0 : Int) < m; omega, fun hne => absurd rfl hne⟩
  exact hinv.2 (by rw [hf]; exact fun hx => nomatch hx)

/-- Counterexample to claim C4 as stated: with `MaxRetry = 0`, the engine's
own sequence `MarkRunning` then `MarkFailed` (an always-failing first
attempt) reaches a Failed job whose `Attempts = 1` exceeds `MaxRetry = 0`. -/
theorem reaches_failed_attempts_gt_maxRetry_cex :
    Reaches (NewJob "t" [] 0 0)
      (((NewJob "t" [] 0 0).MarkRunning 1).1.MarkFailed "boom" 2).1 ∧
    ((((NewJob "t" [] 0 0).MarkRunning 1).1.MarkFailed "boom" 2).1.status =
      Status.failed) ∧
    ¬ ((((NewJob "t" [] 0 0).MarkRunning 1).1.MarkFailed "boom" 2).1.attempts ≤
       (((NewJob "t" [] 0 0).MarkRunning 1).1.MarkFailed "boom" 2).1.maxRetry) := by
  refine ⟨?_, by decide, by decide⟩
  exact Relation.ReflTransGen.tail
    (Relation.ReflTransGen.single (EngineStep.markRunning _ 1))
    (EngineStep.markFailed _ "boom" 2)

/-- Witness for claim C4's amended theorem at `MaxRetry = 1`: the failed job
reached by one failing attempt has `Attempts = 1 <= 1 = MaxRetry`. -/
theorem reaches_failed_attempts_le_maxRetry_check :
    (((NewJob "t" [] 1 0).MarkRunning 1).1.MarkFailed "boom" 2).1.attempts ≤
    (((NewJob "t" [] 1 0).MarkRunning 1).1.MarkFailed "boom" 2).1.maxRetry :=
  reaches_failed_attempts_le_maxRetry 1 (by decide) "t" [] 0 _
    (Relation.ReflTransGen.tail
      (Relation.ReflTransGen.single (EngineStep.markRunning _ 1))
      (EngineStep.markFailed _ "boom" 2))
    (by decide)

end GoQueue
